import Mathlib

/-!
Verification development for the `pino-transport-rotating-file` repository
(`src/index.ts`).  The TypeScript source is shallowly embedded: pure
functions become Lean functions, the stateful components (error logger,
compression ledger, rotation-event handler) become explicit state-passing
functions or step functions over event lists, and the filesystem is a
partial map from paths to entries.  JavaScript machine integers are
modelled as `Nat`/`Int`; timestamps are milliseconds since the Unix epoch
as `Nat`.
-/

namespace PinoTransport

/-! ## Timestamp formats (`TimestampFormat` union type, src line 22) -/

/-- The `TimestampFormat` string union `'iso' | 'unix' | 'utc' | 'rfc2822' | 'epoch'`. -/
inductive TimestampFormat
  | iso
  | unix
  | utc
  | rfc2822
  | epoch
deriving DecidableEq, Repr

/-! ## Date rendering primitives

`generator` (src lines 175-216) renders a JavaScript `Date` through
`toISOString`, `getTime`, `toUTCString`, `toString` and `toFixed`.  These
are modelled below as pure functions of the epoch-millisecond value. -/

/-- Left-pad the decimal rendering of `n` with zeros to width `w`
(JavaScript fixed-width date fields). -/
def padZero (w n : Nat) : String :=
  let s := Nat.repr n
  if s.length < w then String.mk (List.replicate (w - s.length) '0') ++ s else s

/-- Convert a day count since 1970-01-01 into a `(year, month, day)` civil
date (proleptic Gregorian calendar, days ≥ 0).  Standard
days-to-civil-date algorithm, used to model the calendar fields that
JavaScript `Date` methods print. -/
def civilFromDays (z : Nat) : Nat × Nat × Nat :=
  let zd := z + 719468
  let era := zd / 146097
  let doe := zd % 146097
  let yoe := (doe - doe / 1460 + doe / 36524 - doe / 146096) / 365
  let y := yoe + era * 400
  let doy := doe - (365 * yoe + yoe / 4 - yoe / 100)
  let mp := (5 * doy + 2) / 153
  let d := doy - (153 * mp + 2) / 5 + 1
  let m := if mp < 10 then mp + 3 else mp - 9
  (if m ≤ 2 then y + 1 else y, m, d)

/-- Milliseconds in one day. -/
def msPerDay : Nat := 24 * 60 * 60 * 1000

/-- Model of `Date.prototype.toISOString` for an epoch-millisecond value:
`YYYY-MM-DDTHH:mm:ss.sssZ` (years above 9999 use the expanded
`+YYYYYY` form, as in ECMAScript). -/
def toISOString (ms : Nat) : String :=
  let c := civilFromDays (ms / msPerDay)
  let rem := ms % msPerDay
  let yearStr := if c.1 ≤ 9999 then padZero 4 c.1 else "+" ++ padZero 6 c.1
  yearStr ++ "-" ++ padZero 2 c.2.1 ++ "-" ++ padZero 2 c.2.2 ++ "T" ++
    padZero 2 (rem / 3600000) ++ ":" ++ padZero 2 (rem / 60000 % 60) ++ ":" ++
    padZero 2 (rem / 1000 % 60) ++ "." ++ padZero 3 (rem % 1000) ++ "Z"

/-- English weekday abbreviations as printed by `Date` methods. -/
def dayNames : List String := ["Sun", "Mon", "Tue", "Wed", "Thu", "Fri", "Sat"]

/-- English month abbreviations as printed by `Date` methods. -/
def monthNames : List String :=
  ["Jan", "Feb", "Mar", "Apr", "May", "Jun", "Jul", "Aug", "Sep", "Oct", "Nov", "Dec"]

/-- Model of `Date.prototype.toUTCString`:
`Www, DD Mon YYYY HH:MM:SS GMT`. -/
def toUTCString (ms : Nat) : String :=
  let days := ms / msPerDay
  let c := civilFromDays days
  let rem := ms % msPerDay
  dayNames.getD ((days + 4) % 7) "" ++ ", " ++ padZero 2 c.2.2 ++ " " ++
    monthNames.getD (c.2.1 - 1) "" ++ " " ++ padZero 4 c.1 ++ " " ++
    padZero 2 (rem / 3600000) ++ ":" ++ padZero 2 (rem / 60000 % 60) ++ ":" ++
    padZero 2 (rem / 1000 % 60) ++ " GMT"

/-- Model of `Date.prototype.toString`:
`Www Mon DD YYYY HH:MM:SS GMT+HHMM (Zone Name)`.  The local timezone is
environment-dependent at runtime; it is modelled here as UTC (offset
`+0000`), which fixes the suffix. -/
def dateToString (ms : Nat) : String :=
  let days := ms / msPerDay
  let c := civilFromDays days
  let rem := ms % msPerDay
  dayNames.getD ((days + 4) % 7) "" ++ " " ++ monthNames.getD (c.2.1 - 1) "" ++ " " ++
    padZero 2 c.2.2 ++ " " ++ padZero 4 c.1 ++ " " ++
    padZero 2 (rem / 3600000) ++ ":" ++ padZero 2 (rem / 60000 % 60) ++ ":" ++
    padZero 2 (rem / 1000 % 60) ++ " GMT+0000 (Coordinated Universal Time)"

/-- A character is an ASCII letter or digit (the class `[a-zA-Z0-9]` used
by the `utc`/`rfc2822` branches of `generator`). -/
def isAsciiAlnum (c : Char) : Bool :=
  (('a' ≤ c ∧ c ≤ 'z') ∨ ('A' ≤ c ∧ c ≤ 'Z') ∨ ('0' ≤ c ∧ c ≤ '9') : Prop)

/-- Model of the global replacement of `[^a-zA-Z0-9]` by `'-'`: every
character outside `[a-zA-Z0-9]` becomes a hyphen. -/
def hyphenateNonAlnum (s : String) : String :=
  String.mk (s.data.map (fun c => if isAsciiAlnum c then c else '-'))

/-- Helper for `collapseDashes`: the boolean records whether the
previously emitted character was a hyphen. -/
def collapseDashesAux : List Char → Bool → List Char
  | [], _ => []
  | c :: rest, prevDash =>
    if c = '-' then
      if prevDash then collapseDashesAux rest true
      else '-' :: collapseDashesAux rest true
    else c :: collapseDashesAux rest false

/-- Model of the global replacement of the pattern `-+` by `'-'`:
collapse every run of hyphens to a single hyphen. -/
def collapseDashes (s : String) : String :=
  String.mk (collapseDashesAux s.data false)

/-- The compression pipeline applied by the `utc` and `rfc2822` branches
of `generator`: hyphenate non-alphanumerics, collapse hyphen runs, trim
whitespace. -/
def dashify (s : String) : String :=
  (collapseDashes (hyphenateNonAlnum s)).trim

/-- Model of the `iso` branch: `toISOString()` with `[-:T]` removed
globally, then `split('.')[0]`. -/
def isoCompact (ms : Nat) : String :=
  let stripped :=
    String.mk ((toISOString ms).data.filter (fun c => ¬(c = '-' ∨ c = ':' ∨ c = 'T')))
  String.mk (stripped.data.takeWhile (fun c => c ≠ '.'))

/-- The `switch (timestampFormat)` of `generator` (src lines 185-212),
producing the timestamp string for an epoch-millisecond instant.  The
`epoch` branch models `(ms / 1000).toFixed(0)`: `toFixed(0)` rounds to
the nearest integer with ties picking the larger value, which for
non-negative `ms` is `(ms + 500) / 1000` in integer division (exact for
all instants whose millisecond value is below 2^45, where the
floating-point quotient cannot cross a rounding boundary). -/
def renderTimestamp (timestampFormat : TimestampFormat) (ms : Nat) : String :=
  match timestampFormat with
  | .iso => isoCompact ms
  | .unix => Nat.repr ms
  | .utc => dashify (toUTCString ms)
  | .rfc2822 => dashify (dateToString ms)
  | .epoch => Nat.repr ((ms + 500) / 1000)

/-- Model of `node:path`'s `join(dir, name)` for the shapes used here: an
empty directory segment is ignored, otherwise the segments are joined
with a slash. -/
def pathJoin (dir name : String) : String :=
  if dir = "" then name else dir ++ "/" ++ name

/-- The file-name component produced by `generator` for a rotated file
(src lines 214-215): compose `filename-timestamp.log`, then truncate to
200 characters when longer (`slice(0, 200)`, modelled on characters). -/
def rotatedFileName (filename : String) (timestampFormat : TimestampFormat) (ms : Nat) :
    String :=
  let fullName := filename ++ "-" ++ renderTimestamp timestampFormat ms ++ ".log"
  if fullName.length > 200 then String.mk (fullName.data.take 200) else fullName

/-- `generator` (src lines 175-216).  The source's `time` parameter is
`number | Date | null`; `rotating-file-stream` invokes the strategy with
`null` for the live file and a `Date` for rotated files, so presence of
an instant is modelled as `Option Nat` (a `Date` object is always truthy,
hence `!time` corresponds exactly to `none`). -/
def generator (time : Option Nat) (dir filename : String)
    (timestampFormat : TimestampFormat) : String :=
  match time with
  | none => pathJoin dir (filename ++ ".log")
  | some ms => pathJoin dir (rotatedFileName filename timestampFormat ms)

/-! ## Config Validator (src lines 86-162) -/

/-- `sizeUnits` (src lines 86-91) as a lookup function; a missing key
yields `0`, matching the JavaScript `undefined`-is-falsy check in
`validateSize`. -/
def sizeUnits (u : Char) : Nat :=
  if u = 'B' then 1
  else if u = 'K' then 1024
  else if u = 'M' then 1024 ^ 2
  else if u = 'G' then 1024 ^ 3
  else 0

/-- `timeUnits` (src lines 97-103) as a lookup function (milliseconds per
unit); a missing key yields `0`. -/
def timeUnits (u : Char) : Nat :=
  if u = 's' then 1000
  else if u = 'm' then 60 * 1000
  else if u = 'h' then 60 * 60 * 1000
  else if u = 'd' then 24 * 60 * 60 * 1000
  else if u = 'M' then 30 * 24 * 60 * 60 * 1000
  else 0

/-- Numeric value of a digit string (the value `Number.parseInt` returns
on the digit group captured by the validators' regexes). -/
def digitsToNat (ds : List Char) : Nat :=
  ds.foldl (fun a c => a * 10 + (c.toNat - 48)) 0

/-- Model of a regex match for `^(\d+)(U)$` where `U` is a single
character from `units`: the string must be a non-empty digit run followed
by one unit character; on success the digit group and unit are returned. -/
def unitRegexMatch (units : List Char) (s : String) : Option (List Char × Char) :=
  match s.data.getLast? with
  | none => none
  | some u =>
    if s.data.dropLast ≠ [] ∧ s.data.dropLast.all (fun c => c.isDigit) = true ∧ u ∈ units
    then some (s.data.dropLast, u)
    else none

/-- `validateSize` (src lines 111-122): match `^(\d+)([BKMG])$`, reject a
non-positive magnitude, reject an unknown unit. -/
def validateSize (size : String) : Except String Unit :=
  match unitRegexMatch ['B', 'K', 'M', 'G'] size with
  | none =>
    .error ("Invalid size format: " ++ size ++ ". Expected format: <number><B|K|M|G>")
  | some (num, u) =>
    if digitsToNat num ≤ 0 then .error ("Size must be positive: " ++ size)
    else if sizeUnits u = 0 then .error ("Unknown size unit: " ++ String.mk [u])
    else .ok ()

/-- `validateInterval` (src lines 130-141): match `^(\d+)([smhdM])$`,
reject a non-positive magnitude, reject an unknown unit. -/
def validateInterval (interval : String) : Except String Unit :=
  match unitRegexMatch ['s', 'm', 'h', 'd', 'M'] interval with
  | none =>
    .error ("Invalid interval format: " ++ interval ++ ". Expected format: <number><s|m|h|d|M>")
  | some (num, u) =>
    if digitsToNat num ≤ 0 then .error ("Interval must be positive: " ++ interval)
    else if timeUnits u = 0 then .error ("Unknown time unit: " ++ String.mk [u])
    else .ok ()

/-- The five valid timestamp-format literals (src lines 150-156). -/
def validTimestampFormats : List String := ["iso", "unix", "utc", "rfc2822", "epoch"]

/-- `validateTimestampFormat` (src lines 149-162). -/
def validateTimestampFormat (format : String) : Except String Unit :=
  if format ∈ validTimestampFormats then .ok ()
  else
    .error ("Invalid timestampFormat: " ++ format ++
      ". Expected one of: iso, unix, utc, rfc2822, epoch")

/-! ## Error Logger (`createErrorLogger`, src lines 245-303)

The closure state (`buffer`, plus everything ever written to the backing
sink) is made explicit.  Each element of `sink` is the concatenated
payload of one flush (one `write` to the error file, or one
`console.error` call). -/

/-- State of one error-logger instance: the in-memory `buffer` array and
the sequence of flush payloads the backing sink has received. -/
structure ErrorLoggerState where
  buffer : List String := []
  sink : List String := []
deriving DecidableEq, Repr

/-- `flush` (src lines 259-268): a no-op on an empty buffer; otherwise
joins the buffer, clears it, and writes the joined payload to the sink. -/
def errorLoggerFlush (s : ErrorLoggerState) : ErrorLoggerState :=
  if s.buffer.length = 0 then s
  else { buffer := [], sink := s.sink ++ [String.join s.buffer] }

/-- The line formatted by `log` (src line 292):
`ISO-instant - message[: cause]` terminated by a newline.  `now` is the
`toISOString` rendering of the call instant; `cause` is the string
rendering of a truthy `error` argument (`none` when absent or falsy). -/
def errorLogLine (now message : String) (cause : Option String) : String :=
  now ++ " - " ++ message ++ (match cause with | some c => ": " ++ c | none => "") ++ "\n"

/-- `log` (src lines 291-295): append the formatted line, then flush if
the buffer has reached `bufferSize` entries. -/
def errorLoggerLog (bufferSize : Nat) (now message : String) (cause : Option String)
    (s : ErrorLoggerState) : ErrorLoggerState :=
  let s1 : ErrorLoggerState := { s with buffer := s.buffer ++ [errorLogLine now message cause] }
  if bufferSize ≤ s1.buffer.length then errorLoggerFlush s1 else s1

/-- `destroy` (src lines 297-300): one final flush (the timer
cancellation has no effect on the modelled state). -/
def errorLoggerDestroy (s : ErrorLoggerState) : ErrorLoggerState :=
  errorLoggerFlush s

/-- A sequence of `log` calls, each carrying its call instant, message,
and optional cause. -/
def errorLoggerRun (bufferSize : Nat) (entries : List (String × String × Option String))
    (s : ErrorLoggerState) : ErrorLoggerState :=
  entries.foldl (fun st e => errorLoggerLog bufferSize e.1 e.2.1 e.2.2 st) s

/-! ## Filesystem model and Compression Worker (`compressFile`, src 316-350)

The filesystem is a partial map from paths to entries.  The gzip stream
is abstracted as a function on byte lists (zlib is external), and the
possibility of a stream failure inside `pipelineAsync` is modelled by a
`PipeOutcome` oracle: on a fault the destination may or may not have come
into existence with partial content, exactly the states a failed
`createWriteStream` pipeline can leave behind. -/

/-- A filesystem entry: a regular file with byte content, or a
directory. -/
inductive FsEntry
  | file (content : List Nat)
  | directory
deriving DecidableEq, Repr

/-- `stats.isDirectory()`. -/
def FsEntry.isDirectory : FsEntry → Bool
  | .file _ => false
  | .directory => true

/-- A filesystem: a partial map from absolute paths to entries. -/
def FS : Type := String → Option FsEntry

/-- `fileExists` (src lines 226-233): `access` resolves exactly when the
path is present (file or directory). -/
def fileExists (fs : FS) (path : String) : Bool :=
  (fs path).isSome

/-- Create or overwrite a file (the effect of a completed
`createWriteStream` pipeline on `dest`). -/
def fsWrite (fs : FS) (path : String) (e : FsEntry) : FS :=
  fun q => if q = path then some e else fs q

/-- `unlink`: remove a path. -/
def fsUnlink (fs : FS) (path : String) : FS :=
  fun q => if q = path then none else fs q

/-- Outcome oracle for the `pipelineAsync` step of `compressFile`:
`fault = none` means the stream completed (the destination holds the
compressed content); `fault = some e` means the stream failed with error
`e`, in which case `destCreated`/`partialContent` describe what the
aborted write stream left at the destination. -/
structure PipeOutcome where
  fault : Option String := none
  destCreated : Bool := true
  partialContent : List Nat := []
deriving DecidableEq, Repr

/-- `compressFile` (src lines 316-350), as a function from the filesystem
and accumulated error-log messages to the updated filesystem, updated
messages, and the value the returned promise settles with (`.error` =
the promise rejects, after the `catch` block logged and re-threw).
Log entries are recorded as `message[: cause]` pairs; the error logger's
timestamping is modelled separately in `errorLogLine`. -/
def compressFile (src dest : String) (gzip : List Nat → List Nat) (po : PipeOutcome)
    (fs : FS) (logs : List String) : (FS × List String) × Except String Unit :=
  match fs src with
  | none =>
    ((fs, logs ++ ["Skipping compression, file does not exist: " ++ src]), .ok ())
  | some .directory =>
    ((fs, logs ++ ["Skipping compression, source is a directory: " ++ src]), .ok ())
  | some (.file content) =>
    match po.fault with
    | some e =>
      let fs1 := if po.destCreated then fsWrite fs dest (.file po.partialContent) else fs
      ((fs1, logs ++ ["Error compressing file " ++ src ++ ": " ++ e]), .error e)
    | none =>
      let fs1 := fsWrite fs dest (.file (gzip content))
      if fileExists fs1 dest = false then
        let e := "Compression failed: Destination file " ++ dest ++ " not found"
        ((fs1, logs ++ ["Error compressing file " ++ src ++ ": " ++ e]), .error e)
      else
        ((fsUnlink fs1 src, logs), .ok ())

/-! ## Retention Sweeper (`cleanupOldFiles`, src lines 363-392)

A directory listing is a list of `(name, stat result)` pairs: the stat
of an entry may itself fail, which in the source rejects the
`Promise.all` and lands in the surrounding `catch`.  The sweep returns
the deleted paths, the error-log messages produced, and the value the
returned promise settles with (always fulfilled: the whole body is
wrapped in `try`/`catch`). -/

/-- One character list begins with another (auxiliary for the string
tests below; structural, so it evaluates inside the kernel). -/
def startsWithList : List Char → List Char → Bool
  | _, [] => true
  | [], _ :: _ => false
  | c :: cs, p :: ps => (c = p) && startsWithList cs ps

/-- Model of JavaScript `String.prototype.startsWith` on characters. -/
def strStartsWith (s pre : String) : Bool :=
  startsWithList s.data pre.data

/-- Model of JavaScript `String.prototype.endsWith` on characters. -/
def strEndsWith (s suffix : String) : Bool :=
  startsWithList s.data.reverse suffix.data.reverse

/-- The retention filter (src lines 375-379): the entry name starts with
the base filename and ends in `.log` or `.log.gz`. -/
def matchesLogFile (filename file : String) : Bool :=
  strStartsWith file filename && (strEndsWith file ".log" || strEndsWith file ".log.gz")

/-- The cutoff instant (src line 371): `now - retentionDays * 24h`, in
milliseconds (as a JavaScript number subtraction, so possibly
negative). -/
def cleanupCutoff (retentionDays : Nat) (now : Int) : Int :=
  now - retentionDays * (24 * 60 * 60 * 1000)

/-- Per-entry processing of the sweep: scan the listing, delete every
name that passes the retention filter and whose successfully statted
modification time is strictly below the cutoff.  Returns the deleted
paths (joined with the directory) and the first stat failure, if any
(which is what the rejected `Promise.all` reports to the `catch`). -/
def cleanupScan (dir filename : String) (cutoff : Int) :
    List (String × Except String Int) → List String × Option String
  | [] => ([], none)
  | f :: rest =>
    let r := cleanupScan dir filename cutoff rest
    if matchesLogFile filename f.1 then
      match f.2 with
      | .error e => (r.1, some e)
      | .ok mtimeMs => (if mtimeMs < cutoff then pathJoin dir f.1 :: r.1 else r.1, r.2)
    else r

/-- `cleanupOldFiles` (src lines 363-392).  `dirResult` models `readdir`
(which may itself fail); each listed entry carries the outcome of its
`stat`.  Result: `(deleted paths, error-log messages)` and the promise
settlement, which is `.ok` in every case because the body's `catch`
only logs. -/
def cleanupOldFiles (dirResult : Except String (List (String × Except String Int)))
    (dir filename : String) (retentionDays : Nat) (now : Int) :
    (List String × List String) × Except String Unit :=
  match dirResult with
  | .error e =>
    (([], ["Error during log file cleanup in " ++ dir ++ ": " ++ e]), .ok ())
  | .ok files =>
    let cutoff := cleanupCutoff retentionDays now
    let r := cleanupScan dir filename cutoff files
    let delLogs := r.1.map (fun p => "Deleted old log file: " ++ p)
    match r.2 with
    | none => ((r.1, delLogs), .ok ())
    | some e =>
      ((r.1, delLogs ++ ["Error during log file cleanup in " ++ dir ++ ": " ++ e]), .ok ())

/-! ## Compression ledger (`compressedFiles`, src lines 466-496)

The `rotated` event handler's de-duplication state: the
`compressedFiles` map from path to the `Date.now()` at which it was
recorded, the pending `setTimeout` deletions, and (for specification
purposes) the list of compression attempts performed.  Rotation
notifications and timer expirations are events of a step function. -/

/-- `MAX_COMPRESSION_AGE` (src line 467): 24 hours in milliseconds. -/
def MAX_COMPRESSION_AGE : Nat := 24 * 60 * 60 * 1000

/-- State of the rotation-event subscription: the `compressedFiles`
ledger, the scheduled ledger-entry deletions `(path, due instant)`, and
the compression attempts `(path, instant)` made so far. -/
structure CompressionLedgerState where
  compressedFiles : List (String × Nat) := []
  expiryQueue : List (String × Nat) := []
  attempts : List (String × Nat) := []
deriving DecidableEq, Repr

/-- `compressedFiles.has(path)`. -/
def ledgerHas (st : CompressionLedgerState) (path : String) : Bool :=
  st.compressedFiles.any (fun e => e.1 = path)

/-- An event observed by the rotation subscription: a `rotated`
notification (with the oracle outcomes of its `stat` check — `isFile` —
and of the subsequent `compressFile` call), or the firing of a scheduled
ledger-entry deletion. -/
inductive RotationEvent
  | rotated (path : String) (now : Nat) (isFile : Bool) (compressOk : Bool)
  | expire (path : String)
deriving DecidableEq, Repr

/-- One step of the rotation subscription (src lines 470-495 for
`rotated`, the `setTimeout` body of src lines 483-486 for `expire`):
a `rotated` notification for a path already in the ledger returns
immediately; otherwise, when the path is a regular file, compression is
attempted, and on success the path is recorded in the ledger with its
deletion scheduled `MAX_COMPRESSION_AGE` later. -/
def rotationStep (st : CompressionLedgerState) : RotationEvent → CompressionLedgerState
  | .rotated path now isFile compressOk =>
    if ledgerHas st path then st
    else if isFile then
      if compressOk then
        { compressedFiles := st.compressedFiles ++ [(path, now)],
          expiryQueue := st.expiryQueue ++ [(path, now + MAX_COMPRESSION_AGE)],
          attempts := st.attempts ++ [(path, now)] }
      else { st with attempts := st.attempts ++ [(path, now)] }
    else st
  | .expire path =>
    { st with
      compressedFiles := st.compressedFiles.filter (fun e => ¬e.1 = path),
      expiryQueue := st.expiryQueue.filter (fun e => ¬e.1 = path) }

/-- Process a list of events in order. -/
def rotationRun (st : CompressionLedgerState) (events : List RotationEvent) :
    CompressionLedgerState :=
  events.foldl rotationStep st

/-- Number of compression attempts recorded for `path`. -/
def attemptsFor (st : CompressionLedgerState) (path : String) : Nat :=
  st.attempts.countP (fun e => e.1 = path)

/-! ## The `rotated` handler and the write path (src lines 470-496, 507-540) -/

/-- The full body of the `rotated` listener (src lines 470-495) acting on
the filesystem, the `compressedFiles` map, and the error log, with the
oracles for the `stat` call (which throws when the rotated path has
already disappeared) and the compression pipeline.  The second component
is what the handler's promise settles with; the handler's `try`/`catch`
converts every inner rejection into an error-log entry, so it is `.ok`
in every branch. -/
def onRotatedHandler (rotatedFile : String) (now : Nat) (gzip : List Nat → List Nat)
    (po : PipeOutcome) (statResult : Except String Bool) (fs : FS)
    (compressedFiles : List (String × Nat)) (logs : List String) :
    (FS × List (String × Nat) × List String) × Except String Unit :=
  if compressedFiles.any (fun e => e.1 = rotatedFile) then
    ((fs, compressedFiles, logs), .ok ())
  else
    match statResult with
    | .error e =>
      ((fs, compressedFiles,
        logs ++ ["Error compressing rotated file " ++ rotatedFile ++ ": " ++ e]), .ok ())
    | .ok isFile =>
      if isFile then
        match compressFile rotatedFile (rotatedFile ++ ".gz") gzip po fs logs with
        | ((fs1, logs1), .ok _) =>
          ((fs1, compressedFiles ++ [(rotatedFile, now)], logs1), .ok ())
        | ((fs1, logs1), .error e) =>
          ((fs1, compressedFiles,
            logs1 ++ ["Error compressing rotated file " ++ rotatedFile ++ ": " ++ e]), .ok ())
      else
        ((fs, compressedFiles,
          logs ++ ["Skipping compression, rotated file is a directory: " ++ rotatedFile]),
          .ok ())

/-- One inbound chunk through the formatting transform and the stream
pipeline (src lines 508-540): `prettify` models the
`prettyFactory`-based transform body, which may throw; a thrown error is
passed to the transform callback, surfaces in the `pipeline` completion
callback, and is only logged (src lines 535-537).  The result is the
line delivered to the rotating stream (if any), the updated error log,
and what the log-write entry point reports to its caller — `.ok` in
every branch. -/
def writeChunk (prettify : String → Except String String) (chunk : String)
    (logs : List String) : (Option String × List String) × Except String Unit :=
  match prettify chunk with
  | .ok line => ((some line, logs), .ok ())
  | .error e => ((none, logs ++ ["Failed to write log in transport: " ++ e]), .ok ())

/-! ## Transport construction (`pinoTransportRotatingFile`, src 402-555) -/

/-- `Partial<PinoTransportOptions>`: every field optional; `none` models
an absent property, picked up by the destructuring defaults of src lines
422-439. -/
structure PinoTransportOptions where
  dir : Option String := none
  filename : Option String := none
  enabled : Option Bool := none
  size : Option String := none
  interval : Option String := none
  compress : Option Bool := none
  immutable : Option Bool := none
  retentionDays : Option Nat := none
  errorLogFile : Option String := none
  timestampFormat : Option String := none
  skipPretty : Option Bool := none
  errorFlushIntervalMs : Option Nat := none
deriving DecidableEq, Repr

/-- The resolved configuration and startup effects of an enabled
transport: which background activities construction performed or
started (initial retention sweep, daily cleanup timer, subscription of
the `rotated` listener). -/
structure ActiveConfig where
  dir : String
  filename : String
  size : String
  interval : String
  compress : Bool
  immutable : Bool
  retentionDays : Nat
  timestampFormat : String
  skipPretty : Bool
  initialCleanupRun : Bool
  cleanupTimerStarted : Bool
  rotatedListenerSubscribed : Bool
deriving DecidableEq, Repr

/-- What `pinoTransportRotatingFile` resolves to: the disabled
pass-through pipeline (src lines 441-449) or an active transport. -/
inductive TransportResult
  | passthrough
  | active (cfg : ActiveConfig)
deriving DecidableEq, Repr

/-- The synchronous construction phase of `pinoTransportRotatingFile`
(src lines 402-507): destructure with per-field defaults, return the
pass-through immediately when disabled, then require `dir` (a missing or
empty string is falsy), run the three validators, and record the startup
effects.  A thrown configuration error is the `.error` case. -/
def pinoTransportRotatingFile (options : PinoTransportOptions) :
    Except String TransportResult :=
  let enabled := options.enabled.getD true
  if enabled = false then .ok .passthrough
  else
    let dir := options.dir.getD ""
    let filename := options.filename.getD "app"
    let size := options.size.getD "100K"
    let interval := options.interval.getD "1d"
    let compress := options.compress.getD true
    let immutable := options.immutable.getD true
    let retentionDays := options.retentionDays.getD 30
    let timestampFormat := options.timestampFormat.getD "iso"
    let skipPretty := options.skipPretty.getD false
    if dir = "" then .error "Missing required option: dir"
    else
      match validateSize size with
      | .error e => .error e
      | .ok _ =>
        match validateInterval interval with
        | .error e => .error e
        | .ok _ =>
          match validateTimestampFormat timestampFormat with
          | .error e => .error e
          | .ok _ =>
            .ok (.active
              { dir := dir, filename := filename, size := size, interval := interval,
                compress := compress, immutable := immutable,
                retentionDays := retentionDays, timestampFormat := timestampFormat,
                skipPretty := skipPretty,
                initialCleanupRun := decide (0 < retentionDays),
                cleanupTimerStarted := decide (0 < retentionDays),
                rotatedListenerSubscribed := compress })

/-! ## Theorems -/

/-- Claim C9: for every directory, base name, and timestamp format,
calling the filename generator with an absent instant (the current/live
file) returns exactly `dir/baseName.log`, independent of the format
argument. -/
theorem generator_live_file (dir filename : String) (fmt : TimestampFormat) :
    generator none dir filename fmt = pathJoin dir (filename ++ ".log") ∧
    ∀ fmt2 : TimestampFormat,
      generator none dir filename fmt = generator none dir filename fmt2 :=
  ⟨rfl, fun _ => rfl⟩

/-- Claim C7: for every instant, directory, base name, and format, the
file-name component of the generated rotated-file path never exceeds 200
characters (truncation is applied after composing
`<baseName>-<timestamp>.log`), and calling the generator twice with the
same inputs yields the same output. -/
theorem generator_length_bounded (ms : Nat) (dir filename : String)
    (fmt : TimestampFormat) :
    (rotatedFileName filename fmt ms).length ≤ 200 ∧
    generator (some ms) dir filename fmt = pathJoin dir (rotatedFileName filename fmt ms) ∧
    generator (some ms) dir filename fmt = generator (some ms) dir filename fmt := by
  refine ⟨?_, rfl, rfl⟩
  by_cases h : (filename ++ "-" ++ renderTimestamp fmt ms ++ ".log").length > 200
  · simp only [rotatedFileName]
    rw [if_pos h]
    simp only [String.length, List.length_take]
    omega
  · simp only [rotatedFileName, if_neg h]
    omega

/-- Counterexample to claim C6: at the instant 1500 ms after the epoch,
the `epoch` format renders `"2"` (JavaScript `toFixed(0)` rounds 1.5 to
the nearest integer, ties away from zero), not the integer part
`1500 / 1000 = 1` the claim requires. -/
theorem generator_epoch_rounds_cx :
    generator (some 1500) "logs" "app" TimestampFormat.epoch = "logs/app-2.log" ∧
    generator (some 1500) "logs" "app" TimestampFormat.epoch ≠
      pathJoin "logs" ("app-" ++ Nat.repr (1500 / 1000) ++ ".log") := by
  constructor
  · decide
  · decide

/-- Claim C6 (amended): for every instant, the filename generator with
format `epoch` renders the timestamp as the instant's
milliseconds-since-epoch divided by 1000 rounded to the nearest integer,
ties rounded up — the integer `k` with `1000k ≤ ms + 500 < 1000(k+1)` —
not the truncated quotient. -/
theorem generator_epoch_rounded (ms : Nat) :
    ∃ k : Nat, renderTimestamp TimestampFormat.epoch ms = Nat.repr k ∧
      1000 * k ≤ ms + 500 ∧ ms + 500 < 1000 * (k + 1) ∧
      ∀ dir filename : String,
        generator (some ms) dir filename TimestampFormat.epoch =
          pathJoin dir (rotatedFileName filename TimestampFormat.epoch ms) := by
  refine ⟨(ms + 500) / 1000, rfl, ?_, ?_, fun _ _ => rfl⟩
  · omega
  · omega

/-- Claim C10: when the transport is constructed with `enabled = false`,
it returns the pass-through pipeline before any configuration validation
runs: construction succeeds for every options object, including one with
a missing `dir`, a malformed size or interval string, or an unknown
timestamp format. -/
theorem pinoTransport_disabled (options : PinoTransportOptions)
    (h : options.enabled = some false) :
    pinoTransportRotatingFile options = .ok .passthrough := by
  unfold pinoTransportRotatingFile
  rw [h]
  rfl

/-- Witness for claim C10: a disabled transport whose `dir` is missing,
whose size and interval strings are malformed, and whose timestamp
format is unknown still constructs as the pass-through. -/
theorem pinoTransport_disabled_witness :
    pinoTransportRotatingFile
      { enabled := some false, size := some "garbage", interval := some "0x",
        timestampFormat := some "bogus" } = .ok .passthrough :=
  pinoTransport_disabled
    { enabled := some false, size := some "garbage", interval := some "0x",
      timestampFormat := some "bogus" } rfl

/-- Characterization of the modelled regex match: it succeeds exactly on
strings consisting of a non-empty digit run followed by one unit
character. -/
theorem unitRegexMatch_eq_some (units : List Char) (s : String) (ds : List Char) (u : Char) :
    unitRegexMatch units s = some (ds, u) ↔
      s.data = ds ++ [u] ∧ ds ≠ [] ∧ ds.all (fun c => c.isDigit) = true ∧ u ∈ units := by
  obtain ⟨l⟩ := s
  show unitRegexMatch units ⟨l⟩ = some (ds, u) ↔
    l = ds ++ [u] ∧ ds ≠ [] ∧ ds.all (fun c => c.isDigit) = true ∧ u ∈ units
  induction l using List.reverseRecOn with
  | nil =>
    simp only [unitRegexMatch]
    constructor
    · intro h
      simp at h
    · rintro ⟨h, -, -, -⟩
      exact absurd h.symm (List.append_ne_nil_of_right_ne_nil ds (by simp))
  | append_singleton xs x _ih =>
    simp only [unitRegexMatch, List.getLast?_concat, List.dropLast_concat]
    constructor
    · intro h
      split at h
      · next hcond =>
        obtain ⟨hds, hu⟩ : xs = ds ∧ x = u := by
          have := Option.some.inj h
          exact ⟨congrArg Prod.fst this, congrArg Prod.snd this⟩
        subst hds
        subst hu
        exact ⟨rfl, hcond.1, hcond.2.1, hcond.2.2⟩
      · exact absurd h (by simp)
    · rintro ⟨heq, hne, hdig, hu⟩
      obtain ⟨rfl, hx⟩ := List.append_inj' heq rfl
      obtain rfl : x = u := by simpa using hx
      rw [if_pos ⟨hne, hdig, hu⟩]

/-- `validateSize` succeeds exactly on `<digits><unit>` strings with a
positive magnitude and a unit among `B`, `K`, `M`, `G`. -/
theorem validateSize_ok_iff (s : String) :
    validateSize s = .ok () ↔
      ∃ ds u, s.data = ds ++ [u] ∧ ds ≠ [] ∧ ds.all (fun c => c.isDigit) = true ∧
        u ∈ ['B', 'K', 'M', 'G'] ∧ 0 < digitsToNat ds := by
  unfold validateSize
  cases h : unitRegexMatch ['B', 'K', 'M', 'G'] s with
  | none =>
    constructor
    · intro hok
      simp at hok
    · rintro ⟨ds, u, hdata, hne, hdig, hu, hpos⟩
      have : unitRegexMatch ['B', 'K', 'M', 'G'] s = some (ds, u) :=
        (unitRegexMatch_eq_some _ s ds u).mpr ⟨hdata, hne, hdig, hu⟩
      rw [h] at this
      exact absurd this (by simp)
  | some p =>
    obtain ⟨ds0, u0⟩ := p
    have hp := (unitRegexMatch_eq_some ['B', 'K', 'M', 'G'] s ds0 u0).mp h
    have hmem : u0 = 'B' ∨ u0 = 'K' ∨ u0 = 'M' ∨ u0 = 'G' := by simpa using hp.2.2.2
    have hunit : sizeUnits u0 ≠ 0 := by
      rcases hmem with rfl | rfl | rfl | rfl <;> decide
    dsimp only
    by_cases hpos0 : digitsToNat ds0 ≤ 0
    · rw [if_pos hpos0]
      constructor
      · intro hok
        exact absurd hok (by simp)
      · rintro ⟨ds, u, hdata, hne, hdig, hu, hpos⟩
        have huniq : unitRegexMatch ['B', 'K', 'M', 'G'] s = some (ds, u) :=
          (unitRegexMatch_eq_some _ s ds u).mpr ⟨hdata, hne, hdig, hu⟩
        rw [h] at huniq
        obtain ⟨hds, hus⟩ : ds0 = ds ∧ u0 = u := by
          have := Option.some.inj huniq
          exact ⟨congrArg Prod.fst this, congrArg Prod.snd this⟩
        subst hds
        exact absurd hpos (by omega)
    · rw [if_neg hpos0, if_neg hunit]
      exact ⟨fun _ => ⟨ds0, u0, hp.1, hp.2.1, hp.2.2.1, hp.2.2.2, by omega⟩, fun _ => rfl⟩

/-- Every `validateSize` outcome is success or one of the three
configuration errors that name the size field. -/
theorem validateSize_error_forms (s : String) :
    validateSize s = .ok () ∨
    validateSize s =
      .error ("Invalid size format: " ++ s ++ ". Expected format: <number><B|K|M|G>") ∨
    validateSize s = .error ("Size must be positive: " ++ s) ∨
    ∃ u, validateSize s = .error ("Unknown size unit: " ++ String.mk [u]) := by
  unfold validateSize
  cases unitRegexMatch ['B', 'K', 'M', 'G'] s with
  | none => exact Or.inr (Or.inl rfl)
  | some p =>
    obtain ⟨ds, u⟩ := p
    dsimp only
    by_cases h1 : digitsToNat ds ≤ 0
    · rw [if_pos h1]
      exact Or.inr (Or.inr (Or.inl rfl))
    · rw [if_neg h1]
      by_cases h2 : sizeUnits u = 0
      · rw [if_pos h2]
        exact Or.inr (Or.inr (Or.inr ⟨u, rfl⟩))
      · rw [if_neg h2]
        exact Or.inl rfl

/-- `validateInterval` succeeds exactly on `<digits><unit>` strings with
a positive magnitude and a unit among `s`, `m`, `h`, `d`, `M`. -/
theorem validateInterval_ok_iff (s : String) :
    validateInterval s = .ok () ↔
      ∃ ds u, s.data = ds ++ [u] ∧ ds ≠ [] ∧ ds.all (fun c => c.isDigit) = true ∧
        u ∈ ['s', 'm', 'h', 'd', 'M'] ∧ 0 < digitsToNat ds := by
  unfold validateInterval
  cases h : unitRegexMatch ['s', 'm', 'h', 'd', 'M'] s with
  | none =>
    constructor
    · intro hok
      simp at hok
    · rintro ⟨ds, u, hdata, hne, hdig, hu, hpos⟩
      have : unitRegexMatch ['s', 'm', 'h', 'd', 'M'] s = some (ds, u) :=
        (unitRegexMatch_eq_some _ s ds u).mpr ⟨hdata, hne, hdig, hu⟩
      rw [h] at this
      exact absurd this (by simp)
  | some p =>
    obtain ⟨ds0, u0⟩ := p
    have hp := (unitRegexMatch_eq_some ['s', 'm', 'h', 'd', 'M'] s ds0 u0).mp h
    have hmem : u0 = 's' ∨ u0 = 'm' ∨ u0 = 'h' ∨ u0 = 'd' ∨ u0 = 'M' := by
      simpa using hp.2.2.2
    have hunit : timeUnits u0 ≠ 0 := by
      rcases hmem with rfl | rfl | rfl | rfl | rfl <;> decide
    dsimp only
    by_cases hpos0 : digitsToNat ds0 ≤ 0
    · rw [if_pos hpos0]
      constructor
      · intro hok
        exact absurd hok (by simp)
      · rintro ⟨ds, u, hdata, hne, hdig, hu, hpos⟩
        have huniq : unitRegexMatch ['s', 'm', 'h', 'd', 'M'] s = some (ds, u) :=
          (unitRegexMatch_eq_some _ s ds u).mpr ⟨hdata, hne, hdig, hu⟩
        rw [h] at huniq
        obtain ⟨hds, hus⟩ : ds0 = ds ∧ u0 = u := by
          have := Option.some.inj huniq
          exact ⟨congrArg Prod.fst this, congrArg Prod.snd this⟩
        subst hds
        exact absurd hpos (by omega)
    · rw [if_neg hpos0, if_neg hunit]
      exact ⟨fun _ => ⟨ds0, u0, hp.1, hp.2.1, hp.2.2.1, hp.2.2.2, by omega⟩, fun _ => rfl⟩

/-- Every `validateInterval` outcome is success or one of the three
configuration errors that name the interval field. -/
theorem validateInterval_error_forms (s : String) :
    validateInterval s = .ok () ∨
    validateInterval s =
      .error ("Invalid interval format: " ++ s ++ ". Expected format: <number><s|m|h|d|M>") ∨
    validateInterval s = .error ("Interval must be positive: " ++ s) ∨
    ∃ u, validateInterval s = .error ("Unknown time unit: " ++ String.mk [u]) := by
  unfold validateInterval
  cases unitRegexMatch ['s', 'm', 'h', 'd', 'M'] s with
  | none => exact Or.inr (Or.inl rfl)
  | some p =>
    obtain ⟨ds, u⟩ := p
    dsimp only
    by_cases h1 : digitsToNat ds ≤ 0
    · rw [if_pos h1]
      exact Or.inr (Or.inr (Or.inl rfl))
    · rw [if_neg h1]
      by_cases h2 : timeUnits u = 0
      · rw [if_pos h2]
        exact Or.inr (Or.inr (Or.inr ⟨u, rfl⟩))
      · rw [if_neg h2]
        exact Or.inl rfl

/-- `validateTimestampFormat` succeeds exactly on the five enumerated
literals and otherwise fails with the error naming the field. -/
theorem validateTimestampFormat_cases (s : String) :
    (validateTimestampFormat s = .ok () ↔ s ∈ validTimestampFormats) ∧
    (validateTimestampFormat s ≠ .ok () →
      validateTimestampFormat s =
        .error ("Invalid timestampFormat: " ++ s ++
          ". Expected one of: iso, unix, utc, rfc2822, epoch")) := by
  unfold validateTimestampFormat
  by_cases h : s ∈ validTimestampFormats
  · rw [if_pos h]
    exact ⟨⟨fun _ => h, fun _ => rfl⟩, fun hne => absurd rfl hne⟩
  · rw [if_neg h]
    constructor
    · constructor
      · intro hok
        exact absurd hok (by simp)
      · intro hmem
        exact absurd hmem h
    · intro _
      rfl

/-- Claim C2: for every size string of the form `<n><unit>` with integer
`n > 0` and unit in `{B, K, M, G}`, `validateSize` returns without
error; for any string whose magnitude is not positive or whose
unit/format is not recognized, validation fails with a configuration
error that names the offending field; likewise for interval strings over
`{s, m, h, d, M}` and for timestamp formats outside the five enumerated
literals. -/
theorem validateConfig_spec :
    (∀ s, validateSize s = .ok () ↔
      ∃ ds u, s.data = ds ++ [u] ∧ ds ≠ [] ∧ ds.all (fun c => c.isDigit) = true ∧
        u ∈ ['B', 'K', 'M', 'G'] ∧ 0 < digitsToNat ds) ∧
    (∀ s, validateSize s = .ok () ∨
      validateSize s =
        .error ("Invalid size format: " ++ s ++ ". Expected format: <number><B|K|M|G>") ∨
      validateSize s = .error ("Size must be positive: " ++ s) ∨
      ∃ u, validateSize s = .error ("Unknown size unit: " ++ String.mk [u])) ∧
    (∀ s, validateInterval s = .ok () ↔
      ∃ ds u, s.data = ds ++ [u] ∧ ds ≠ [] ∧ ds.all (fun c => c.isDigit) = true ∧
        u ∈ ['s', 'm', 'h', 'd', 'M'] ∧ 0 < digitsToNat ds) ∧
    (∀ s, validateInterval s = .ok () ∨
      validateInterval s =
        .error ("Invalid interval format: " ++ s ++ ". Expected format: <number><s|m|h|d|M>") ∨
      validateInterval s = .error ("Interval must be positive: " ++ s) ∨
      ∃ u, validateInterval s = .error ("Unknown time unit: " ++ String.mk [u])) ∧
    (∀ s, validateTimestampFormat s = .ok () ↔ s ∈ validTimestampFormats) ∧
    (∀ s, validateTimestampFormat s ≠ .ok () →
      validateTimestampFormat s =
        .error ("Invalid timestampFormat: " ++ s ++
          ". Expected one of: iso, unix, utc, rfc2822, epoch")) :=
  ⟨validateSize_ok_iff, validateSize_error_forms, validateInterval_ok_iff,
    validateInterval_error_forms, fun s => (validateTimestampFormat_cases s).1,
    fun s => (validateTimestampFormat_cases s).2⟩

/-- Witness for claim C2: `validateSize` accepts `"10K"`,
`validateInterval` accepts `"1d"`, `validateTimestampFormat` accepts
`"iso"` and rejects `"bogus"` with the error naming the field. -/
theorem validateConfig_spec_witness :
    validateSize "10K" = .ok () ∧ validateInterval "1d" = .ok () ∧
    validateTimestampFormat "iso" = .ok () ∧
    validateTimestampFormat "bogus" =
      .error ("Invalid timestampFormat: " ++ "bogus" ++
        ". Expected one of: iso, unix, utc, rfc2822, epoch") :=
  ⟨(validateConfig_spec.1 "10K").mpr
      ⟨['1', '0'], 'K', by decide, by decide, by decide, by decide, by decide⟩,
    (validateConfig_spec.2.2.1 "1d").mpr
      ⟨['1'], 'd', by decide, by decide, by decide, by decide, by decide⟩,
    (validateConfig_spec.2.2.2.2.1 "iso").mpr (by decide),
    validateConfig_spec.2.2.2.2.2 "bogus" (fun hcontra => Except.noConfusion hcontra)⟩

/-- A path is never equal to itself with `".gz"` appended (their lengths
differ by three). -/
theorem append_gz_ne (s : String) : s ++ ".gz" ≠ s := by
  intro h
  have hl := congrArg String.length h
  rw [String.length_append] at hl
  have h3 : (".gz" : String).length = 3 := rfl
  omega

/-- Claim C1: for every existing source path that is not a directory,
`compressFile` produces the destination file `source + ".gz"` containing
the compressed original content and then removes the source, deleting
the original only after the destination's existence has been verified
(in every execution, including faulty pipeline outcomes, the source is
gone only if the destination exists); for a non-existent source path,
`compressFile` returns without raising and without creating any file. -/
theorem compressFile_spec :
    (∀ (fs : FS) (src : String) (gzip : List Nat → List Nat) (po : PipeOutcome)
        (content : List Nat) (logs : List String),
      fs src = some (.file content) → po.fault = none →
        (compressFile src (src ++ ".gz") gzip po fs logs).2 = .ok () ∧
        (compressFile src (src ++ ".gz") gzip po fs logs).1.1 (src ++ ".gz") =
          some (.file (gzip content)) ∧
        (compressFile src (src ++ ".gz") gzip po fs logs).1.1 src = none) ∧
    (∀ (fs : FS) (src : String) (gzip : List Nat → List Nat) (po : PipeOutcome)
        (logs : List String),
      fs src = none →
        (compressFile src (src ++ ".gz") gzip po fs logs).2 = .ok () ∧
        (compressFile src (src ++ ".gz") gzip po fs logs).1.1 = fs) ∧
    (∀ (fs : FS) (src : String) (gzip : List Nat → List Nat) (po : PipeOutcome)
        (logs : List String),
      fs src ≠ none →
      (compressFile src (src ++ ".gz") gzip po fs logs).1.1 src = none →
        ∃ c, (compressFile src (src ++ ".gz") gzip po fs logs).1.1 (src ++ ".gz") = some c) := by
  refine ⟨?_, ?_, ?_⟩
  · intro fs src gzip po content logs hsrc hfault
    unfold compressFile
    rw [hsrc, hfault]
    have hdest : fileExists (fsWrite fs (src ++ ".gz") (.file (gzip content))) (src ++ ".gz") =
        true := by
      simp [fileExists, fsWrite]
    dsimp only
    rw [hdest]
    refine ⟨rfl, ?_, ?_⟩
    · show fsUnlink (fsWrite fs (src ++ ".gz") (.file (gzip content))) src (src ++ ".gz") =
        some (.file (gzip content))
      simp [fsUnlink, fsWrite, append_gz_ne src]
    · show fsUnlink (fsWrite fs (src ++ ".gz") (.file (gzip content))) src src = none
      simp [fsUnlink]
  · intro fs src gzip po logs hsrc
    unfold compressFile
    rw [hsrc]
    exact ⟨rfl, rfl⟩
  · intro fs src gzip po logs hsrc hgone
    cases he : fs src with
    | none => exact absurd he hsrc
    | some entry =>
      cases entry with
      | directory =>
        have heq : compressFile src (src ++ ".gz") gzip po fs logs =
            ((fs, logs ++ ["Skipping compression, source is a directory: " ++ src]), .ok ()) := by
          unfold compressFile
          rw [he]
        rw [heq] at hgone
        exact absurd hgone hsrc
      | file content =>
        cases hf : po.fault with
        | some e =>
          by_cases hc : po.destCreated
          · have heq : compressFile src (src ++ ".gz") gzip po fs logs =
                ((fsWrite fs (src ++ ".gz") (.file po.partialContent),
                  logs ++ ["Error compressing file " ++ src ++ ": " ++ e]), .error e) := by
              unfold compressFile
              rw [he, hf]
              dsimp only
              rw [if_pos hc]
            rw [heq] at hgone
            by_cases hq : src = src ++ ".gz"
            · simp [fsWrite, if_pos hq] at hgone
            · simp only [fsWrite, if_neg hq] at hgone
              exact absurd hgone hsrc
          · have heq : compressFile src (src ++ ".gz") gzip po fs logs =
                ((fs, logs ++ ["Error compressing file " ++ src ++ ": " ++ e]), .error e) := by
              unfold compressFile
              rw [he, hf]
              dsimp only
              rw [if_neg hc]
            rw [heq] at hgone
            exact absurd hgone hsrc
        | none =>
          have heq : compressFile src (src ++ ".gz") gzip po fs logs =
              ((fsUnlink (fsWrite fs (src ++ ".gz") (.file (gzip content))) src, logs),
                .ok ()) := by
            unfold compressFile
            rw [he, hf]
            have hdest : fileExists (fsWrite fs (src ++ ".gz") (.file (gzip content)))
                (src ++ ".gz") = true := by
              simp [fileExists, fsWrite]
            dsimp only
            rw [hdest]
            rfl
          rw [heq]
          refine ⟨.file (gzip content), ?_⟩
          show fsUnlink (fsWrite fs (src ++ ".gz") (.file (gzip content))) src (src ++ ".gz") =
            some (.file (gzip content))
          simp [fsUnlink, fsWrite, append_gz_ne src]

/-- Witness for claim C1: on a filesystem holding only `app-1.log` with
content `[7]`, a fault-free compression produces `app-1.log.gz`
containing the compressed bytes and removes the source; on the same
filesystem a compression of the absent `other.log` is a no-op. -/
theorem compressFile_spec_witness :
    (compressFile "app-1.log" ("app-1.log" ++ ".gz") (fun l => 0 :: l) {}
      (fun p => if p = "app-1.log" then some (.file [7]) else none) []).2 = .ok () ∧
    (compressFile "app-1.log" ("app-1.log" ++ ".gz") (fun l => 0 :: l) {}
      (fun p => if p = "app-1.log" then some (.file [7]) else none) []).1.1
      ("app-1.log" ++ ".gz") = some (.file [0, 7]) ∧
    (compressFile "app-1.log" ("app-1.log" ++ ".gz") (fun l => 0 :: l) {}
      (fun p => if p = "app-1.log" then some (.file [7]) else none) []).1.1 "app-1.log" =
      none ∧
    (compressFile "other.log" ("other.log" ++ ".gz") (fun l => 0 :: l) {}
      (fun p => if p = "app-1.log" then some (.file [7]) else none) []).2 = .ok () := by
  have h1 := compressFile_spec.1 (fun p => if p = "app-1.log" then some (.file [7]) else none)
    "app-1.log" (fun l => 0 :: l) {} [7] [] (by decide) rfl
  have h2 := (compressFile_spec.2.1 (fun p => if p = "app-1.log" then some (.file [7]) else none)
    "other.log" (fun l => 0 :: l) {} [] (by decide)).1
  exact ⟨h1.1, h1.2.1, h1.2.2, h2⟩

/-- Running `log` calls that never fill the buffer only appends the
formatted lines; the sink receives nothing. -/
theorem errorLoggerRun_no_flush (bufferSize : Nat)
    (entries : List (String × String × Option String)) (s : ErrorLoggerState)
    (h : s.buffer.length + entries.length < bufferSize) :
    errorLoggerRun bufferSize entries s =
      { buffer := s.buffer ++ entries.map (fun e => errorLogLine e.1 e.2.1 e.2.2),
        sink := s.sink } := by
  induction entries generalizing s with
  | nil =>
    simp [errorLoggerRun]
  | cons e rest ih =>
    have hstep : errorLoggerLog bufferSize e.1 e.2.1 e.2.2 s =
        { s with buffer := s.buffer ++ [errorLogLine e.1 e.2.1 e.2.2] } := by
      unfold errorLoggerLog
      rw [if_neg]
      simp only [List.length_append, List.length_cons, List.length_nil] at h ⊢
      omega
    show errorLoggerRun bufferSize (e :: rest) s = _
    unfold errorLoggerRun
    rw [List.foldl_cons]
    have hrec := ih { s with buffer := s.buffer ++ [errorLogLine e.1 e.2.1 e.2.2] }
      (by simp at h ⊢; omega)
    unfold errorLoggerRun at hrec
    rw [hstep, hrec]
    simp

/-- Filling the buffer to exactly `bufferSize` entries from an empty
logger produces exactly one flush carrying the concatenation of all
formatted lines, leaving the buffer empty. -/
theorem errorLoggerRun_flush_at_capacity (bufferSize : Nat)
    (entries : List (String × String × Option String))
    (hlen : entries.length = bufferSize) (hpos : 0 < bufferSize) :
    errorLoggerRun bufferSize entries {} =
      { buffer := [],
        sink := [String.join (entries.map (fun e => errorLogLine e.1 e.2.1 e.2.2))] } := by
  induction entries using List.reverseRecOn with
  | nil =>
    rw [List.length_nil] at hlen
    omega
  | append_singleton init lst _ih =>
    unfold errorLoggerRun
    rw [List.foldl_append, List.foldl_cons, List.foldl_nil]
    have hinit : init.length + 1 = bufferSize := by
      simpa using hlen
    have hrun : List.foldl (fun st e => errorLoggerLog bufferSize e.1 e.2.1 e.2.2 st)
        ({} : ErrorLoggerState) init =
        { buffer := init.map (fun e => errorLogLine e.1 e.2.1 e.2.2), sink := [] } := by
      have := errorLoggerRun_no_flush bufferSize init {} (by simp; omega)
      unfold errorLoggerRun at this
      simpa using this
    rw [hrun]
    unfold errorLoggerLog
    rw [if_pos (by
      simp only [List.length_append, List.length_map, List.length_cons, List.length_nil]
      omega)]
    unfold errorLoggerFlush
    rw [if_neg (by
      simp only [List.length_append, List.length_map, List.length_cons, List.length_nil]
      omega)]
    simp

/-- Claim C4: for the error logger with capacity 100: after `N` `log`
calls with `N < 100` and before the flush interval elapses, nothing is
written to the backing sink; as soon as `N` reaches 100, or when the
interval elapses with a non-empty buffer, exactly one flush writes the
concatenation of all buffered lines and the buffer is empty immediately
afterward, with each buffered line of the form
`<ISO instant> - <message>[: cause]` followed by a newline. -/
theorem errorLogger_spec :
    (∀ entries : List (String × String × Option String), entries.length < 100 →
      errorLoggerRun 100 entries {} =
        { buffer := entries.map (fun e => errorLogLine e.1 e.2.1 e.2.2), sink := [] }) ∧
    (∀ entries : List (String × String × Option String), entries.length = 100 →
      errorLoggerRun 100 entries {} =
        { buffer := [],
          sink := [String.join (entries.map (fun e => errorLogLine e.1 e.2.1 e.2.2))] }) ∧
    (∀ s : ErrorLoggerState, s.buffer ≠ [] →
      errorLoggerFlush s = { buffer := [], sink := s.sink ++ [String.join s.buffer] }) ∧
    (∀ now message cause, errorLogLine now message (some cause) =
      now ++ " - " ++ message ++ (": " ++ cause) ++ "\n") ∧
    (∀ now message, errorLogLine now message none = now ++ " - " ++ message ++ "\n") := by
  refine ⟨?_, ?_, ?_, ?_, ?_⟩
  · intro entries h
    have := errorLoggerRun_no_flush 100 entries {} (by simpa using h)
    simpa using this
  · intro entries h
    exact errorLoggerRun_flush_at_capacity 100 entries h (by omega)
  · intro s hne
    unfold errorLoggerFlush
    rw [if_neg (by simpa using hne)]
  · intro now message cause
    rfl
  · intro now message
    show now ++ " - " ++ message ++ "" ++ "\n" = now ++ " - " ++ message ++ "\n"
    rw [String.append_empty]

/-- Witness for claim C4: one buffered line stays out of the sink; a
non-empty buffer flushes to a single concatenated sink write. -/
theorem errorLogger_spec_witness :
    errorLoggerRun 100 [("T", "boom", none)] {} =
      { buffer := ["T - boom\n"], sink := [] } ∧
    errorLoggerFlush { buffer := ["a\n", "b\n"], sink := [] } =
      { buffer := [], sink := ["a\nb\n"] } := by
  constructor
  · have h := errorLogger_spec.1 [("T", "boom", none)] (by decide)
    simpa using h
  · have h := errorLogger_spec.2.2.1 { buffer := ["a\n", "b\n"], sink := [] } (by simp)
    simpa using h

/-- A single event that is not the expiry of `p` neither removes `p`
from the ledger nor adds a compression attempt for `p`, provided `p` is
in the ledger. -/
theorem rotationStep_preserves (st : CompressionLedgerState) (p : String)
    (e : RotationEvent) (hmem : ledgerHas st p = true) (hne : e ≠ .expire p) :
    ledgerHas (rotationStep st e) p = true ∧
    attemptsFor (rotationStep st e) p = attemptsFor st p := by
  cases e with
  | rotated q t isf ok =>
    by_cases hq : ledgerHas st q
    · simp [rotationStep, hq, hmem]
    · have hqp : ¬(q = p) := fun h => hq (h ▸ hmem)
      cases isf with
      | false => simp [rotationStep, hq, hmem]
      | true =>
        cases ok with
        | false =>
          have hq2 : (st.compressedFiles.any fun e => decide (e.1 = q)) = false := by
            have hq3 : ledgerHas st q = false := by
              rwa [Bool.not_eq_true] at hq
            exact hq3
          refine ⟨by simpa [rotationStep, ledgerHas, hq2] using hmem, ?_⟩
          simp [rotationStep, hq, attemptsFor, List.countP_append, hqp]
        | true =>
          constructor
          · simp only [rotationStep, hq, Bool.false_eq_true, if_false, if_true]
            simp only [ledgerHas, List.any_append] at hmem ⊢
            simp [hmem]
          · simp only [rotationStep, hq, Bool.false_eq_true, if_false, if_true]
            simp [attemptsFor, List.countP_append, hqp]
  | expire q =>
    have hqp : ¬(q = p) := fun h => hne (h ▸ rfl)
    constructor
    · simp only [rotationStep, ledgerHas, List.any_eq_true] at hmem ⊢
      obtain ⟨x, hx, hxp⟩ := hmem
      refine ⟨x, List.mem_filter.mpr ⟨hx, ?_⟩, hxp⟩
      simp only [decide_eq_true_eq] at hxp
      simp only [hxp, decide_eq_true_eq]
      exact fun h => hqp h.symm
    · simp [rotationStep, attemptsFor]

/-- While `p` stays in the ledger, a whole trace of events containing no
expiry of `p` adds no compression attempts for `p`. -/
theorem rotationRun_no_new_attempts (events : List RotationEvent)
    (st : CompressionLedgerState) (p : String) (hmem : ledgerHas st p = true)
    (hno : ∀ e ∈ events, e ≠ .expire p) :
    attemptsFor (rotationRun st events) p = attemptsFor st p ∧
    ledgerHas (rotationRun st events) p = true := by
  induction events generalizing st with
  | nil => exact ⟨rfl, hmem⟩
  | cons e rest ih =>
    have hstep := rotationStep_preserves st p e hmem (hno e (by simp))
    have hrec := ih (rotationStep st e) hstep.1 (fun x hx => hno x (by simp [hx]))
    refine ⟨?_, hrec.2⟩
    show attemptsFor (rotationRun (rotationStep st e) rest) p = _
    rw [hrec.1, hstep.2]

/-- Claim C5: for every rotated-file path, duplicate rotation
notifications for that same path trigger at most one compression attempt
while the path is in the compression ledger (a notification for a
ledgered path is a no-op, and whole traces without that path's expiry
add no attempts for it), and a ledger entry recorded at compression time
is scheduled for removal `MAX_COMPRESSION_AGE` (24 hours) later, the
expiry event removing it from the ledger. -/
theorem compressionLedger_spec :
    (∀ (st : CompressionLedgerState) (p : String) (now : Nat) (isFile compressOk : Bool),
      ledgerHas st p = true → rotationStep st (.rotated p now isFile compressOk) = st) ∧
    (∀ (st : CompressionLedgerState) (p : String) (events : List RotationEvent),
      ledgerHas st p = true → (∀ e ∈ events, e ≠ .expire p) →
        attemptsFor (rotationRun st events) p = attemptsFor st p) ∧
    (∀ (st : CompressionLedgerState) (p : String) (now : Nat),
      ledgerHas st p = false →
        (rotationStep st (.rotated p now true true)).compressedFiles =
          st.compressedFiles ++ [(p, now)] ∧
        (rotationStep st (.rotated p now true true)).expiryQueue =
          st.expiryQueue ++ [(p, now + MAX_COMPRESSION_AGE)] ∧
        (rotationStep st (.rotated p now true true)).attempts =
          st.attempts ++ [(p, now)]) ∧
    (∀ (st : CompressionLedgerState) (p : String),
      ledgerHas (rotationStep st (.expire p)) p = false) := by
  refine ⟨?_, ?_, ?_, ?_⟩
  · intro st p now isf ok hmem
    simp [rotationStep, hmem]
  · intro st p events hmem hno
    exact (rotationRun_no_new_attempts events st p hmem hno).1
  · intro st p now hmem
    refine ⟨?_, ?_, ?_⟩ <;> simp [rotationStep, hmem]
  · intro st p
    simp only [rotationStep, ledgerHas]
    by_contra hcontra
    rw [Bool.not_eq_false, List.any_eq_true] at hcontra
    obtain ⟨x, hx, hxp⟩ := hcontra
    have hkeep := (List.mem_filter.mp hx).2
    simp only [decide_eq_true_eq] at hxp hkeep
    exact hkeep hxp

/-- Witness for claim C5: with `a.log` already ledgered, a duplicate
notification is a no-op; once expired, a fresh notification records the
entry and schedules its removal 24 hours later. -/
theorem compressionLedger_spec_witness :
    rotationStep
      { compressedFiles := [("a.log", 5)], expiryQueue := [("a.log", 5 + MAX_COMPRESSION_AGE)],
        attempts := [("a.log", 5)] } (.rotated "a.log" 9 true true) =
      { compressedFiles := [("a.log", 5)], expiryQueue := [("a.log", 5 + MAX_COMPRESSION_AGE)],
        attempts := [("a.log", 5)] } ∧
    (rotationStep { compressedFiles := [], expiryQueue := [], attempts := [] }
      (.rotated "a.log" 9 true true)).expiryQueue = [("a.log", 9 + MAX_COMPRESSION_AGE)] := by
  constructor
  · exact compressionLedger_spec.1
      { compressedFiles := [("a.log", 5)], expiryQueue := [("a.log", 5 + MAX_COMPRESSION_AGE)],
        attempts := [("a.log", 5)] } "a.log" 9 true true (by decide)
  · have h := (compressionLedger_spec.2.2.1
      { compressedFiles := [], expiryQueue := [], attempts := [] } "a.log" 9 (by decide)).2.1
    simpa using h

/-- On a fault-free directory listing, the sweep deletes exactly the
entries that pass the retention filter with a modification time strictly
below the cutoff, and reports no stat failure. -/
theorem cleanupScan_no_faults (dir filename : String) (cutoff : Int)
    (files : List (String × Int)) :
    cleanupScan dir filename cutoff (files.map (fun f => (f.1, .ok f.2))) =
      ((files.filter (fun f =>
          matchesLogFile filename f.1 && decide (f.2 < cutoff))).map
        (fun f => pathJoin dir f.1), none) := by
  induction files with
  | nil => rfl
  | cons f rest ih =>
    have hstep : cleanupScan dir filename cutoff ((f.1, Except.ok f.2) ::
        rest.map (fun f => (f.1, .ok f.2))) =
        (if matchesLogFile filename f.1 then
          (if f.2 < cutoff then
            pathJoin dir f.1 ::
              (cleanupScan dir filename cutoff (rest.map (fun f => (f.1, .ok f.2)))).1
          else (cleanupScan dir filename cutoff (rest.map (fun f => (f.1, .ok f.2)))).1,
          (cleanupScan dir filename cutoff (rest.map (fun f => (f.1, .ok f.2)))).2)
        else cleanupScan dir filename cutoff (rest.map (fun f => (f.1, .ok f.2)))) := rfl
    show cleanupScan dir filename cutoff ((f.1, Except.ok f.2) ::
      rest.map (fun f => (f.1, .ok f.2))) = _
    rw [hstep, ih]
    by_cases hm : matchesLogFile filename f.1
    · rw [if_pos hm]
      by_cases ht : f.2 < cutoff
      · rw [if_pos ht]
        simp [List.filter_cons, hm, ht]
      · rw [if_neg ht]
        simp [List.filter_cons, hm, ht]
    · rw [if_neg hm]
      simp [List.filter_cons, hm]

/-- Claim C3: a retention sweep deletes exactly those directory entries
whose name starts with the base filename and ends in `.log` or
`.log.gz` and whose last-modified time is strictly older than
`now - retentionDays * 24h`, leaving every newer or non-matching file
untouched; when `retentionDays` is 0 no initial sweep runs and no
cleanup timer is started. -/
theorem cleanupOldFiles_spec :
    (∀ (dir filename : String) (retentionDays : Nat) (now : Int)
        (files : List (String × Int)),
      cleanupOldFiles (.ok (files.map (fun f => (f.1, .ok f.2)))) dir filename
          retentionDays now =
        ((((files.filter (fun f => matchesLogFile filename f.1 &&
              decide (f.2 < cleanupCutoff retentionDays now))).map
            (fun f => pathJoin dir f.1)),
          ((files.filter (fun f => matchesLogFile filename f.1 &&
              decide (f.2 < cleanupCutoff retentionDays now))).map
            (fun f => "Deleted old log file: " ++ pathJoin dir f.1))), .ok ())) ∧
    (∀ (options : PinoTransportOptions) (cfg : ActiveConfig),
      pinoTransportRotatingFile options = .ok (.active cfg) →
      cfg.retentionDays = 0 →
        cfg.initialCleanupRun = false ∧ cfg.cleanupTimerStarted = false) := by
  constructor
  · intro dir filename retentionDays now files
    unfold cleanupOldFiles
    dsimp only
    rw [cleanupScan_no_faults]
    simp [List.map_map]
  · intro options cfg h hr
    simp only [pinoTransportRotatingFile] at h
    split at h
    · exact absurd (Except.ok.inj h) (by intro hc; cases hc)
    · split at h
      · exact Except.noConfusion h
      · split at h
        · exact Except.noConfusion h
        · split at h
          · exact Except.noConfusion h
          · split at h
            · exact Except.noConfusion h
            · have hcfg := (Except.ok.inj h)
              have hcfg2 : TransportResult.active _ = TransportResult.active cfg := hcfg
              cases hcfg2
              constructor
              · show decide (0 < options.retentionDays.getD 30) = false
                have : options.retentionDays.getD 30 = 0 := hr
                rw [this]
                decide
              · show decide (0 < options.retentionDays.getD 30) = false
                have : options.retentionDays.getD 30 = 0 := hr
                rw [this]
                decide

/-- Witness for claim C3: among three files the sweep deletes only the
matching stale one, and a zero retention window records no sweep and no
timer at construction. -/
theorem cleanupOldFiles_spec_witness :
    (cleanupOldFiles (.ok [("app-1.log", .ok 10), ("app-2.log", .ok 500),
        ("other.txt", .ok 10)]) "logs" "app" 0 100).1 =
      (["logs/app-1.log"], ["Deleted old log file: logs/app-1.log"]) ∧
    (cleanupOldFiles (.ok [("app-1.log", .ok 10), ("app-2.log", .ok 500),
        ("other.txt", .ok 10)]) "logs" "app" 0 100).2 = .ok () ∧
    (∀ cfg, pinoTransportRotatingFile
        { dir := some "logs", retentionDays := some 0 } = .ok (.active cfg) →
      cfg.retentionDays = 0 →
        cfg.initialCleanupRun = false ∧ cfg.cleanupTimerStarted = false) := by
  have h := cleanupOldFiles_spec.1 "logs" "app" 0 100
    [("app-1.log", 10), ("app-2.log", 500), ("other.txt", 10)]
  rw [show (([("app-1.log", 10), ("app-2.log", 500), ("other.txt", 10)] :
      List (String × Int)).map (fun f => (f.1, Except.ok f.2))) =
      [("app-1.log", .ok 10), ("app-2.log", .ok 500), ("other.txt", .ok 10)] from rfl] at h
  refine ⟨?_, ?_, ?_⟩
  · rw [congrArg Prod.fst h]
    decide
  · rw [congrArg Prod.snd h]
  · intro cfg h2 hr
    exact cleanupOldFiles_spec.2 { dir := some "logs", retentionDays := some 0 } cfg h2 hr

/-- Claim C8: no failure originating inside compression, retention
cleanup, or the formatting transform surfaces as an exception to the
caller of the log-write entry point: the `rotated` handler settles
successfully for every oracle outcome (compression errors are caught and
only reported via the error log), the retention sweep settles
successfully for every listing/stat outcome, and a formatting failure
only appends to the error log; compression failures do occur inside
`compressFile` (its promise rejects on a pipeline fault), and the only
caller-visible failure modelled at construction is the configuration
error. -/
theorem errorIsolation_spec :
    (∀ (rotatedFile : String) (now : Nat) (gzip : List Nat → List Nat) (po : PipeOutcome)
        (statResult : Except String Bool) (fs : FS)
        (compressedFiles : List (String × Nat)) (logs : List String),
      (onRotatedHandler rotatedFile now gzip po statResult fs compressedFiles logs).2 =
        .ok ()) ∧
    (∀ (fs : FS) (src : String) (gzip : List Nat → List Nat) (po : PipeOutcome)
        (content : List Nat) (logs : List String) (e : String),
      fs src = some (.file content) → po.fault = some e →
        (compressFile src (src ++ ".gz") gzip po fs logs).2 = .error e) ∧
    (∀ (dirResult : Except String (List (String × Except String Int)))
        (dir filename : String) (retentionDays : Nat) (now : Int),
      (cleanupOldFiles dirResult dir filename retentionDays now).2 = .ok ()) ∧
    (∀ (prettify : String → Except String String) (chunk : String) (logs : List String),
      (writeChunk prettify chunk logs).2 = .ok ()) ∧
    (∀ (prettify : String → Except String String) (chunk : String) (logs : List String)
        (e : String),
      prettify chunk = .error e →
        writeChunk prettify chunk logs =
          ((none, logs ++ ["Failed to write log in transport: " ++ e]), .ok ())) ∧
    (pinoTransportRotatingFile { enabled := some true } =
      .error "Missing required option: dir") := by
  refine ⟨?_, ?_, ?_, ?_, ?_, ?_⟩
  · intro rotatedFile now gzip po statResult fs compressedFiles logs
    unfold onRotatedHandler
    by_cases hdup : compressedFiles.any (fun e => e.1 = rotatedFile)
    · rw [if_pos hdup]
    · rw [if_neg hdup]
      cases statResult with
      | error e => rfl
      | ok isFile =>
        cases isFile with
        | false => rfl
        | true =>
          dsimp only
          cases hc : compressFile rotatedFile (rotatedFile ++ ".gz") gzip po fs logs with
          | mk fl res =>
            cases res with
            | ok u => rfl
            | error e => rfl
  · intro fs src gzip po content logs e hsrc hfault
    unfold compressFile
    rw [hsrc, hfault]
  · intro dirResult dir filename retentionDays now
    unfold cleanupOldFiles
    cases dirResult with
    | error e => rfl
    | ok files =>
      dsimp only
      cases (cleanupScan dir filename (cleanupCutoff retentionDays now) files).2 with
      | none => rfl
      | some e => rfl
  · intro prettify chunk logs
    unfold writeChunk
    cases prettify chunk with
    | ok line => rfl
    | error e => rfl
  · intro prettify chunk logs e hp
    unfold writeChunk
    rw [hp]
  · rfl

/-- Witness for claim C8: a pipeline fault on an existing rotated file
makes the inner `compressFile` promise reject, yet the surrounding
`rotated` handler still settles successfully, and the formatting-failure
path only logs. -/
theorem errorIsolation_spec_witness :
    (compressFile "r.log" ("r.log" ++ ".gz") (fun l => l) { fault := some "disk full" }
      (fun p => if p = "r.log" then some (.file [1]) else none) []).2 =
      .error "disk full" ∧
    (onRotatedHandler "r.log" 42 (fun l => l) { fault := some "disk full" } (.ok true)
      (fun p => if p = "r.log" then some (.file [1]) else none) [] []).2 = .ok () ∧
    writeChunk (fun _ => .error "bad json") "chunk" [] =
      ((none, ["Failed to write log in transport: " ++ "bad json"]), .ok ()) := by
  refine ⟨?_, ?_, ?_⟩
  · exact errorIsolation_spec.2.1 (fun p => if p = "r.log" then some (.file [1]) else none)
      "r.log" (fun l => l) { fault := some "disk full" } [1] [] "disk full" (by decide) rfl
  · exact errorIsolation_spec.1 "r.log" 42 (fun l => l) { fault := some "disk full" }
      (.ok true) (fun p => if p = "r.log" then some (.file [1]) else none) [] []
  · exact errorIsolation_spec.2.2.2.2.1 (fun _ => .error "bad json") "chunk" [] "bad json" rfl

end PinoTransport
